import Mathlib

/-!
Verification development for the typescript-eslint fragment consisting of
`packages/experimental-utils/src/ts-eslint/RuleTester.ts` and the `ESLint`
declaration file.  The fragment declares typed interfaces over the wrapped
ESLint engine plus a thin `RuleTester` subclass whose constructor forces the
`noWatch` parser option on when a type-aware `project` is configured and whose
`run` method forwards its three arguments to the superclass unchanged.
JavaScript runtime values relevant to the constructor's truthiness test and
assignment are embedded as `JSVal`.  Behavior that the fragment only declares
(the wrapped engine's linting, formatter resolution and the external test
runner's assertions) is modelled from the spec, with each such definition
marked `Modelled from the spec:` in its doc comment.
-/

/-- A JavaScript runtime value, as far as the fragment's behavioral code
inspects one: the constructor tests truthiness of `parserOptions.project` and
applies `typeof x` / `||` to `parserOptions.noWatch`. -/
inductive JSVal where
  | undefined : JSVal
  | null : JSVal
  | bool (b : Bool) : JSVal
  | num (n : Int) : JSVal
  | str (s : String) : JSVal
deriving DecidableEq

/-- JavaScript truthiness: `undefined`, `null`, `false`, `0` and the empty
string are falsy; every other value is truthy. -/
def truthy : JSVal → Bool
  | .undefined => false
  | .null => false
  | .bool b => b
  | .num n => n != 0
  | .str s => s != ""

/-- JavaScript `typeof v === 'boolean'`. -/
def jsTypeofIsBoolean : JSVal → Bool
  | .bool _ => true
  | _ => false

/-- JavaScript `a || b`: returns `a` when `a` is truthy, otherwise `b`. -/
def jsOr (a b : JSVal) : JSVal :=
  if truthy a then a else b

/-- The `ParserOptions` interface is imported from `./ParserOptions`, which is
not part of this fragment; only the two fields the `RuleTester` constructor
touches (`project`, `noWatch`) are named, and the remaining parser-option
fields are kept abstractly as an association list. -/
structure ParserOptions where
  project : JSVal := JSVal.undefined
  noWatch : JSVal := JSVal.undefined
  rest : List (String × JSVal) := []
deriving DecidableEq

/-- `RuleTesterConfig` from `RuleTester.ts`: a parser path (the result of
`require.resolve(parserPackageName)`) plus optional default parser options. -/
structure RuleTesterConfig where
  parser : String
  parserOptions : Option ParserOptions := none
deriving DecidableEq

/-- The `RuleTester` constructor from `RuleTester.ts`.  After calling
`super(testerConfig)` it runs

    if (testerConfig?.parserOptions?.project) \x7b
      testerConfig.parserOptions.noWatch =
        typeof testerConfig.parserOptions.noWatch === 'boolean' || true;
    \x7d

mutating the caller's config object in place; the embedding returns the
configuration as it stands after construction. -/
def RuleTester.construct (testerConfig : Option RuleTesterConfig) :
    Option RuleTesterConfig :=
  match testerConfig with
  | none => none
  | some cfg =>
    match cfg.parserOptions with
    | none => some cfg
    | some po =>
      if truthy po.project then
        some { cfg with
          parserOptions := some { po with
            noWatch := jsOr (JSVal.bool (jsTypeofIsBoolean po.noWatch))
              (JSVal.bool true) } }
      else
        some cfg

/-- The setting of one entry of `globals` in a test case:
`'readonly' | 'writable' | 'off'`. -/
inductive GlobalSetting where
  | readonly : GlobalSetting
  | writable : GlobalSetting
  | off : GlobalSetting
deriving DecidableEq

/-- `ValidTestCase` from `RuleTester.ts`.  The generic `TOptions` (a readonly
tuple of rule options) is modelled as a list of `JSVal`. -/
structure ValidTestCase where
  code : String
  env : Option (List (String × Bool)) := none
  filename : Option String := none
  globals : Option (List (String × GlobalSetting)) := none
  options : Option (List JSVal) := none
  parser : Option String := none
  parserOptions : Option ParserOptions := none
  settings : Option (List (String × JSVal)) := none

/-- `SuggestionOutput` from `RuleTester.ts`: the expected message id, optional
message-template data, and the required isolated output after applying just
this suggestion. -/
structure SuggestionOutput where
  messageId : String
  data : Option (List (String × JSVal)) := none
  output : String

/-- `TestCaseError` from `RuleTester.ts`.  `AST_NODE_TYPES | AST_TOKEN_TYPES`
comes from `../ts-estree`, which is not part of this fragment; the `type` tag
is modelled as the enum member's name.  `suggestions` is
`SuggestionOutput[] | null` and optional, hence two `Option` layers. -/
structure TestCaseError where
  column : Option Nat := none
  data : Option (List (String × String)) := none
  endColumn : Option Nat := none
  endLine : Option Nat := none
  line : Option Nat := none
  messageId : String
  suggestions : Option (Option (List SuggestionOutput)) := none
  type : Option String := none

/-- `InvalidTestCase` from `RuleTester.ts`: a valid case plus expected errors
and the optional expected post-autofix `output`, whose type is
`string | null` and optional.  `none` models an omitted field, `some none`
models an explicit `null`, `some (some s)` a string. -/
structure InvalidTestCase extends ValidTestCase where
  errors : List TestCaseError
  output : Option (Option String) := none

/-- `RunTests` from `RuleTester.ts`: `RuleTester.run` also accepts bare
strings for valid cases, modelled as the left summand. -/
structure RunTests where
  valid : List (Sum String ValidTestCase)
  invalid : List InvalidTestCase

/-- `RuleTester.run` from `RuleTester.ts`.  The superclass (the wrapped
external ESLint `RuleTester`, typed via a cast in the source) is not part of
this fragment, so its `run` is taken as a parameter; the method body is
exactly `super.run(ruleName, rule, tests)`.  `RuleModule` comes from `./Rule`,
which is also not in the fragment, so the rule stays a type parameter. -/
def RuleTester.run {RuleModule Outcome : Type}
    (superRun : String → RuleModule → RunTests → Outcome)
    (ruleName : String) (rule : RuleModule) (tests : RunTests) : Outcome :=
  superRun ruleName rule tests

/-- `Linter.LintMessage`, consumed but not defined by this fragment; the shape
is the spec's diagnostic record `(ruleId, severity(1|2), message, messageId,
line, column, endLine?, endColumn?, fix?)`.  `fix` records whether the message
carries a fix payload. -/
structure LintMessage where
  ruleId : Option String := none
  severity : Nat
  message : String := ""
  messageId : Option String := none
  line : Nat := 1
  column : Nat := 1
  endLine : Option Nat := none
  endColumn : Option Nat := none
  fix : Bool := false
deriving DecidableEq

/-- `ESLint.DeprecatedRuleInfo`: a deprecated rule id and its replacements. -/
structure DeprecatedRuleInfo where
  ruleId : String
  replacedBy : List String
deriving DecidableEq

/-- `ESLint.LintResult`: one result per linted file, with the four counts, the
message sequence, optional post-fix output and original source, and the used
deprecated rules. -/
structure LintResult where
  errorCount : Nat
  filePath : String
  fixableErrorCount : Nat
  fixableWarningCount : Nat
  messages : List LintMessage
  output : Option String := none
  source : Option String := none
  usedDeprecatedRules : List DeprecatedRuleInfo := []
  warningCount : Nat
deriving DecidableEq

/-- Modelled from the spec: `LintResult` values are produced by the wrapped
ESLint engine, which this fragment only declares.  Per the spec each count
equals the number of matching-severity entries of the message sequence
(severity 2 = error, 1 = warning), and the fixable counts restrict further to
messages carrying a fix payload. -/
def mkLintResult (filePath : String) (messages : List LintMessage)
    (out src : Option String) (used : List DeprecatedRuleInfo) : LintResult :=
  { errorCount := messages.countP (fun m => m.severity == 2),
    filePath := filePath,
    fixableErrorCount := messages.countP (fun m => m.severity == 2 && m.fix),
    fixableWarningCount := messages.countP (fun m => m.severity == 1 && m.fix),
    messages := messages,
    output := out,
    source := src,
    usedDeprecatedRules := used,
    warningCount := messages.countP (fun m => m.severity == 1) }

/-- `ESLint.ESLintOptions` from the declaration file.  `Linter.Config`,
`Linter.ConfigOverride`, `Linter.Plugin` and `Linter.SeverityString` come from
`Linter.ts`, which is not part of this fragment, and are kept abstract as
`JSVal` / strings. -/
structure ESLintOptions where
  allowInlineConfig : Option Bool := none
  baseConfig : Option JSVal := none
  cache : Option Bool := none
  cacheLocation : Option String := none
  cwd : Option String := none
  errorOnUnmatchedPattern : Option Bool := none
  extensions : Option (List String) := none
  fix : Option (Sum Bool (LintMessage → Bool)) := none
  fixTypes : Option (List String) := none
  globInputPaths : Option Bool := none
  ignore : Option Bool := none
  ignorePath : Option String := none
  overrideConfig : Option JSVal := none
  overrideConfigFile : Option String := none
  plugins : Option (List (String × JSVal)) := none
  reportUnusedDisableDirectives : Option String := none
  resolvePluginsRelativeTo : Option String := none
  rulePaths : Option (List String) := none
  useEslintrc : Option Bool := none

/-- The failure modes of the session operations named by the spec's error
taxonomy that the modelled operations can hit. -/
inductive ESLintError where
  | unmatchedPattern (pattern : String) : ESLintError
  | formatterNotFound (name : String) : ESLintError
  | formatterNotFunction (name : String) : ESLintError
deriving DecidableEq

/-- Modelled from the spec: `ESLint.lintFiles` is implemented by the wrapped
engine; the fragment declares its signature and the
`errorOnUnmatchedPattern` option ("If `false` then `ESLint#lintFiles()`
doesn't throw even if no target files found. Defaults to `true`.").  File
resolution and per-file linting are abstracted as `matchFiles` (pattern to
matched files) and `lintFile` (file to its result): the call fails with an
unmatched-pattern error when the option (defaulted to true) is on and some
pattern matches nothing, and otherwise returns one result per matched file. -/
def lintFiles (opts : ESLintOptions) (matchFiles : String → List String)
    (lintFile : String → LintResult) (patterns : List String) :
    Except ESLintError (List LintResult) :=
  match patterns.find? (fun p => (matchFiles p).isEmpty),
      opts.errorOnUnmatchedPattern.getD true with
  | some p, true => .error (.unmatchedPattern p)
  | _, _ => .ok (((patterns.map matchFiles).flatten).map lintFile)

/-- `ESLint.LintTextOptions`: the fake file path used for config resolution
and the `warnIgnored` toggle. -/
structure LintTextOptions where
  filePath : Option String := none
  warnIgnored : Option Bool := none
deriving DecidableEq

/-- Modelled from the spec: the single warning result the engine produces for
an ignored path when `warnIgnored` is set — one result with zero rule
diagnostics (no message carries a rule id, error count zero) and one warning
about the file being ignored. -/
def ignoredFileResult (filePath : String) : LintResult :=
  mkLintResult filePath
    [{ ruleId := none, severity := 1,
       message := "File ignored because of a matching ignore pattern." }]
    none none []

/-- Modelled from the spec: `ESLint.lintText` is implemented by the wrapped
engine; the fragment declares its signature and options.  The engine's ignore
test is abstracted as `isIgnored` and its linting of a non-ignored text as
`lintCode`.  Per the spec the call returns exactly one result unless the path
is ignored; for an ignored path it warns and skips when `warnIgnored` is true
and silently skips otherwise (the spec leaves the omitted-`warnIgnored`
default open between "no result" and "silent skip"; the model returns no
result), and it never throws. -/
def lintText (isIgnored : String → Bool)
    (lintCode : String → Option String → LintResult)
    (code : String) (options : Option LintTextOptions) : List LintResult :=
  match options.bind (fun o => o.filePath) with
  | none => [lintCode code none]
  | some f =>
    if isIgnored f then
      if (options.bind (fun o => o.warnIgnored)).getD false then
        [ignoredFileResult f]
      else
        []
    else
      [lintCode code (some f)]

/-- Modelled from the spec: `RuleMetaData` is declared in `Rule.ts`, which is
not part of this fragment; it stands in abstractly for per-rule metadata. -/
structure RuleMetaData where
  meta : List (String × JSVal) := []

/-- `ESLint.LintResultData`: per-rule metadata passed to a formatter, keyed by
rule id. -/
structure LintResultData where
  rulesMeta : List (String × RuleMetaData) := []

/-- `ESLint.Formatter`: a function from a result sequence plus optional
per-rule metadata to a formatted string. -/
def Formatter : Type :=
  List LintResult → Option LintResultData → String

/-- Modelled from the spec: what a formatter name can resolve to — a module
whose default export is a function (an invocable formatter), or one that is
not a function. -/
inductive FormatterModule where
  | fn (f : Formatter) : FormatterModule
  | notFn : FormatterModule

/-- Modelled from the spec: the three places `loadFormatter` can resolve a
name in — the builtin formatters, installed packages (keyed by package name),
and the filesystem (keyed by path). -/
structure FormatterEnv where
  builtins : List (String × FormatterModule) := []
  packages : List (String × FormatterModule) := []
  files : List (String × FormatterModule) := []

/-- First value bound to the key in an association list, if any. -/
def assocFind (k : String) : List (String × FormatterModule) → Option FormatterModule
  | [] => none
  | (k2, v) :: rest => if k2 = k then some v else assocFind k rest

/-- Splits a character list at its first slash: the part before it, and the
part after it when a slash occurs at all. -/
def splitAtSlash : List Char → List Char × Option (List Char)
  | [] => ([], none)
  | c :: rest =>
    if c = '/' then ([], some rest)
    else
      let r := splitAtSlash rest
      (c :: r.1, r.2)

/-- The third-party formatter package naming convention documented on
`ESLint.loadFormatter`: `foo` becomes `eslint-formatter-foo`, `@foo` becomes
`@foo/eslint-formatter`, and `@foo/bar` becomes `@foo/eslint-formatter-bar`. -/
def normalizePackageName (name : String) : String :=
  match name.toList with
  | '@' :: rest =>
    match splitAtSlash ('@' :: rest) with
    | (_, none) => name ++ "/eslint-formatter"
    | (scope, some tail) =>
      String.mk scope ++ "/eslint-formatter-" ++ String.mk tail
  | _ => "eslint-formatter-" ++ name

/-- Modelled from the spec: the three-tier lookup of `loadFormatter` — try
the builtin formatters under the given name, then an installed package under
the documented naming convention, then the filesystem under the name as a
path. -/
def resolveFormatter (env : FormatterEnv) (n : String) : Option FormatterModule :=
  match assocFind n env.builtins with
  | some m => some m
  | none =>
    match assocFind (normalizePackageName n) env.packages with
    | some m => some m
    | none => assocFind n env.files

/-- Modelled from the spec: `ESLint.loadFormatter` is implemented by the
wrapped engine; the fragment documents its three-tier lookup (builtin name,
third-party package naming convention, file path), that an omitted name loads
the `stylish` builtin, and that the promise is rejected when the formatter is
not found or not a function. -/
def loadFormatter (env : FormatterEnv) (name : Option String) :
    Except ESLintError Formatter :=
  match resolveFormatter env (name.getD "stylish") with
  | some (.fn f) => .ok f
  | some .notFn => .error (.formatterNotFunction (name.getD "stylish"))
  | none => .error (.formatterNotFound (name.getD "stylish"))

/-- `ESLint.getErrorResults` (static).  Modelled from the spec: the engine
filters a result sequence to only the entries with nonzero error count. -/
def getErrorResults (results : List LintResult) : List LintResult :=
  results.filter (fun r => r.errorCount != 0)

/-- The post-autofix source of an invalid test case: the fixed text when the
rule produced a fix, otherwise the original code. -/
def postFixSource (code : String) (fixProduced : Option String) : String :=
  fixProduced.getD code

/-- Modelled from the spec: the external test runner's check of an invalid
case's expected `output` against what the rule's autofix produced
(`fixProduced = some s` when a fix was produced yielding source `s`, `none`
when no fix was produced).  An omitted `output` is not checked; `output: null`
asserts no fix was produced; a string asserts the post-autofix source equals
it exactly. -/
def outputCheck (code : String) (expected : Option (Option String))
    (fixProduced : Option String) : Bool :=
  match expected with
  | none => true
  | some none => fixProduced.isNone
  | some (some s) => postFixSource code fixProduced == s

/-- A two-message sequence (one fixable error, one warning) used to evaluate
the count invariants on a concrete input. -/
def c2msgs : List LintMessage :=
  [{ ruleId := some "r1", severity := 2, fix := true },
   { ruleId := some "r2", severity := 1 }]

/-- A concrete ignore predicate: exactly the path `ig.ts` is ignored. -/
def cIsIgnored : String → Bool := fun s => s == "ig.ts"

/-- A concrete stand-in for the engine's text linting: an empty result at the
resolved file path. -/
def cLintCode : String → Option String → LintResult :=
  fun _ fp => mkLintResult (fp.getD "a.ts") [] none none []

/-- A concrete file resolution: the pattern `src` matches one file and every
other pattern matches nothing. -/
def c4MatchFiles : String → List String :=
  fun p => if p = "src" then ["src/a.ts"] else []

/-- A concrete stand-in for the engine's per-file linting. -/
def c4LintFile : String → LintResult :=
  fun f => mkLintResult f [] none none []

/-- Session options with `errorOnUnmatchedPattern: false`. -/
def c4Opts : ESLintOptions := { errorOnUnmatchedPattern := some false }

/-- A concrete formatter. -/
def cFmt : Formatter := fun _ _ => "ok"

/-- A formatter environment with a single builtin. -/
def c6Env : FormatterEnv := { builtins := [("stylish", FormatterModule.fn cFmt)] }

theorem jsOr_typeof_bool_true (v : JSVal) :
    jsOr (JSVal.bool (jsTypeofIsBoolean v)) (JSVal.bool true) = JSVal.bool true := by
  cases v <;> simp [jsOr, jsTypeofIsBoolean, truthy]

/-- C1: for every tester configuration whose parser options have a truthy
`project`, the configuration that results from the `RuleTester` constructor
has `parserOptions.noWatch = true`: file watching is forced off in type-aware
project mode. -/
theorem c1_project_mode_forces_noWatch (cfg : RuleTesterConfig)
    (po : ParserOptions) (hpo : cfg.parserOptions = some po)
    (hproj : truthy po.project = true) :
    ∃ cfg2 po2, RuleTester.construct (some cfg) = some cfg2 ∧
      cfg2.parserOptions = some po2 ∧ po2.noWatch = JSVal.bool true := by
  refine ⟨{ cfg with parserOptions := some { po with
      noWatch := jsOr (JSVal.bool (jsTypeofIsBoolean po.noWatch))
        (JSVal.bool true) } }, _, ?_, rfl, jsOr_typeof_bool_true po.noWatch⟩
  simp [RuleTester.construct, hpo, hproj]

theorem c1_project_mode_forces_noWatch_witness :
    ∃ cfg2 po2,
      RuleTester.construct (some
          ⟨"pp", some ⟨JSVal.str "./tsconfig.json", JSVal.undefined, []⟩⟩) =
        some cfg2 ∧
      cfg2.parserOptions = some po2 ∧ po2.noWatch = JSVal.bool true :=
  c1_project_mode_forces_noWatch _ _ rfl (by decide)

/-- C9: inside the constructor the value assigned to `parserOptions.noWatch`
is (the embedding of) `typeof parserOptions.noWatch === 'boolean' || true`,
which evaluates to `true` for every possible prior value of `noWatch`; in
particular a configuration whose caller explicitly set `noWatch` to `false`
has it overwritten to `true`, observable after construction. -/
theorem c9_noWatch_assignment_always_true :
    (∀ v : JSVal,
      jsOr (JSVal.bool (jsTypeofIsBoolean v)) (JSVal.bool true) = JSVal.bool true) ∧
    RuleTester.construct (some
        ⟨"pp", some ⟨JSVal.str "./tsconfig.json", JSVal.bool false, []⟩⟩) =
      some ⟨"pp", some ⟨JSVal.str "./tsconfig.json", JSVal.bool true, []⟩⟩ :=
  ⟨jsOr_typeof_bool_true, by decide⟩

/-- C10: the constructor is a frame: with an absent config, absent parser
options, or an absent/falsy `project`, nothing is changed and construction
still succeeds; with a truthy `project`, every part of the configuration
other than `parserOptions.noWatch` is unchanged. -/
theorem c10_construct_frame :
    RuleTester.construct none = none ∧
    (∀ p : String, RuleTester.construct (some ⟨p, none⟩) = some ⟨p, none⟩) ∧
    (∀ (p : String) (po : ParserOptions), truthy po.project = false →
      RuleTester.construct (some ⟨p, some po⟩) = some ⟨p, some po⟩) ∧
    (∀ (p : String) (po : ParserOptions), truthy po.project = true →
      ∃ po2, RuleTester.construct (some ⟨p, some po⟩) = some ⟨p, some po2⟩ ∧
        po2.project = po.project ∧ po2.rest = po.rest ∧
        po2.noWatch = JSVal.bool true) := by
  refine ⟨rfl, fun p => rfl, fun p po h => ?_, fun p po h => ?_⟩
  · simp [RuleTester.construct, h]
  · refine ⟨{ po with noWatch := JSVal.bool true }, ?_, rfl, rfl, rfl⟩
    simp [RuleTester.construct, h, jsOr_typeof_bool_true]

theorem c10_construct_frame_witness :
    RuleTester.construct (some ⟨"pp",
        some ⟨JSVal.num 0, JSVal.bool true, [("x", JSVal.num 1)]⟩⟩) =
      some ⟨"pp", some ⟨JSVal.num 0, JSVal.bool true, [("x", JSVal.num 1)]⟩⟩ ∧
    (∃ po2, RuleTester.construct (some ⟨"pp",
        some ⟨JSVal.num 3, JSVal.null, [("x", JSVal.num 1)]⟩⟩) =
        some ⟨"pp", some po2⟩ ∧ po2.project = JSVal.num 3 ∧
        po2.rest = [("x", JSVal.num 1)] ∧ po2.noWatch = JSVal.bool true) :=
  ⟨c10_construct_frame.2.2.1 "pp" _ (by decide),
   c10_construct_frame.2.2.2 "pp" ⟨JSVal.num 3, JSVal.null, [("x", JSVal.num 1)]⟩
     (by decide)⟩

/-- C8: `RuleTester.run` invokes the wrapped external test runner's `run`
with exactly the same three arguments, unchanged, and performs nothing
else: its observable behavior equals the superclass run's behavior on those
arguments. -/
theorem c8_run_forwards_to_superclass {RuleModule Outcome : Type}
    (superRun : String → RuleModule → RunTests → Outcome)
    (ruleName : String) (rule : RuleModule) (tests : RunTests) :
    RuleTester.run superRun ruleName rule tests = superRun ruleName rule tests :=
  rfl

theorem countP_partition_eq_length {α : Type} (p q : α → Bool) (l : List α)
    (hne : ∀ x ∈ l, ¬(p x = true ∧ q x = true))
    (hor : ∀ x ∈ l, p x = true ∨ q x = true) :
    l.countP p + l.countP q = l.length := by
  induction l with
  | nil => simp
  | cons a t ih =>
    have ih2 := ih (fun x hx => hne x (List.mem_cons_of_mem a hx))
      (fun x hx => hor x (List.mem_cons_of_mem a hx))
    have ha := hor a (List.mem_cons_self a t)
    have hna := hne a (List.mem_cons_self a t)
    cases hp : p a <;> cases hq : q a
    · simp [hp, hq] at ha
    · simp [List.countP_cons, hp, hq]
      omega
    · simp [List.countP_cons, hp, hq]
      omega
    · exact absurd ⟨hp, hq⟩ hna

/-- C2: for every `LintResult` produced by the modelled engine, `errorCount`
counts the severity-2 messages, `warningCount` the severity-1 messages, the
fixable counts are bounded by the corresponding counts, and when only these
two severities occur the error and warning counts sum to the message count;
all four counts are natural numbers. -/
theorem c2_lintResult_count_invariants (fp : String) (msgs : List LintMessage)
    (out src : Option String) (used : List DeprecatedRuleInfo) (r : LintResult)
    (hr : r = mkLintResult fp msgs out src used) :
    r.errorCount = (msgs.filter (fun m => m.severity == 2)).length ∧
    r.warningCount = (msgs.filter (fun m => m.severity == 1)).length ∧
    r.fixableErrorCount ≤ r.errorCount ∧
    r.fixableWarningCount ≤ r.warningCount ∧
    ((∀ m ∈ msgs, m.severity = 1 ∨ m.severity = 2) →
      r.errorCount + r.warningCount = msgs.length) := by
  subst hr
  refine ⟨List.countP_eq_length_filter _ _, List.countP_eq_length_filter _ _,
    ?_, ?_, fun hsev => ?_⟩
  · exact List.countP_mono_left (fun m _ h => by
      simp only [Bool.and_eq_true] at h
      exact h.1)
  · exact List.countP_mono_left (fun m _ h => by
      simp only [Bool.and_eq_true] at h
      exact h.1)
  · exact countP_partition_eq_length _ _ msgs
      (fun m hm => by rcases hsev m hm with h | h <;> simp [h])
      (fun m hm => by rcases hsev m hm with h | h <;> simp [h])

theorem c2_lintResult_count_invariants_witness :
    (mkLintResult "f.ts" c2msgs none none []).errorCount +
      (mkLintResult "f.ts" c2msgs none none []).warningCount = c2msgs.length ∧
    (mkLintResult "f.ts" c2msgs none none []).fixableErrorCount ≤
      (mkLintResult "f.ts" c2msgs none none []).errorCount :=
  ⟨(c2_lintResult_count_invariants "f.ts" c2msgs none none [] _ rfl).2.2.2.2
      (by decide),
   (c2_lintResult_count_invariants "f.ts" c2msgs none none [] _ rfl).2.2.1⟩

/-- C3: for an invalid test case, a non-null string `output` makes the fix
check pass exactly when the post-autofix source equals it; an explicit null
`output` asserts no autofix was produced, so a rule that proposes a fix fails
the case; an omitted `output` is never checked. -/
theorem c3_output_field_semantics (code s : String) (fixProduced : Option String)
    (tc : InvalidTestCase) :
    (tc.output = some (some s) →
      (outputCheck code tc.output fixProduced = true ↔
        postFixSource code fixProduced = s)) ∧
    (tc.output = some none →
      (outputCheck code tc.output fixProduced = true ↔ fixProduced = none) ∧
      (∀ t, fixProduced = some t →
        outputCheck code tc.output fixProduced = false)) ∧
    (tc.output = none → outputCheck code tc.output fixProduced = true) := by
  refine ⟨fun h => ?_, fun h => ⟨?_, fun t ht => ?_⟩, fun h => ?_⟩
  · rw [h]
    simp [outputCheck]
  · rw [h]
    simp [outputCheck]
  · rw [h, ht]
    simp [outputCheck]
  · rw [h]
    simp [outputCheck]

theorem c3_output_field_semantics_witness :
    outputCheck "var x" ((⟨⟨"var x", none, none, none, none, none, none, none⟩,
        [{ messageId := "e" }], some none⟩ : InvalidTestCase).output)
      (some "fixed") = false ∧
    outputCheck "var x" (some (some "fixed")) (some "fixed") = true :=
  ⟨((c3_output_field_semantics "var x" "s" (some "fixed")
      ⟨⟨"var x", none, none, none, none, none, none, none⟩,
        [{ messageId := "e" }], some none⟩).2.1 rfl).2 "fixed" rfl,
   ((c3_output_field_semantics "var x" "fixed" (some "fixed")
      ⟨⟨"var x", none, none, none, none, none, none, none⟩,
        [{ messageId := "e" }], some (some "fixed")⟩).1 rfl).mpr rfl⟩

/-- C5: `lintText` returns exactly one result for a non-ignored path; for an
ignored path with `warnIgnored: true` it returns exactly one result with zero
rule diagnostics (error count zero, no message carries a rule id) and one
warning about the file being ignored; for an ignored path with `warnIgnored`
false or omitted it yields no result; and being a total function it never
throws — it always returns a list of at most one result. -/
theorem c5_lintText_ignored_path (isIgnored : String → Bool)
    (lintCode : String → Option String → LintResult) (code f : String)
    (warnIgnored : Option Bool) :
    (isIgnored f = false →
      lintText isIgnored lintCode code (some ⟨some f, warnIgnored⟩) =
        [lintCode code (some f)]) ∧
    (isIgnored f = true → warnIgnored = some true →
      lintText isIgnored lintCode code (some ⟨some f, warnIgnored⟩) =
        [ignoredFileResult f] ∧
      (ignoredFileResult f).errorCount = 0 ∧
      (ignoredFileResult f).warningCount = 1 ∧
      (∀ m ∈ (ignoredFileResult f).messages,
        m.ruleId = none ∧ m.severity = 1)) ∧
    (isIgnored f = true → (warnIgnored = none ∨ warnIgnored = some false) →
      lintText isIgnored lintCode code (some ⟨some f, warnIgnored⟩) = []) ∧
    (lintText isIgnored lintCode code (some ⟨some f, warnIgnored⟩)).length ≤ 1 := by
  refine ⟨fun h => by simp [lintText, h], fun h hw => ?_, fun h hw => ?_, ?_⟩
  · subst hw
    exact ⟨by simp [lintText, h], rfl, rfl,
      by simp [ignoredFileResult, mkLintResult]⟩
  · rcases hw with hw | hw <;> subst hw <;> simp [lintText, h]
  · cases h : isIgnored f
    · simp [lintText, h]
    · simp [lintText, h]
      split <;> simp

theorem c5_lintText_ignored_path_witness :
    lintText cIsIgnored cLintCode "let y" (some ⟨some "a.ts", none⟩) =
      [cLintCode "let y" (some "a.ts")] ∧
    lintText cIsIgnored cLintCode "let y" (some ⟨some "ig.ts", some true⟩) =
      [ignoredFileResult "ig.ts"] ∧
    lintText cIsIgnored cLintCode "let y" (some ⟨some "ig.ts", none⟩) = [] :=
  ⟨(c5_lintText_ignored_path cIsIgnored cLintCode "let y" "a.ts" none).1
      (by decide),
   ((c5_lintText_ignored_path cIsIgnored cLintCode "let y" "ig.ts"
      (some true)).2.1 (by decide) rfl).1,
   (c5_lintText_ignored_path cIsIgnored cLintCode "let y" "ig.ts" none).2.2.1
      (by decide) (Or.inl rfl)⟩

/-- C7: `getErrorResults` returns exactly the entries of the input sequence
whose error count is nonzero, in their original order (the returned sequence
is a sublist of the input, its members are exactly the nonzero-error entries,
and its length is the number of such entries). -/
theorem c7_getErrorResults_exact (results : List LintResult) :
    (getErrorResults results).Sublist results ∧
    (∀ r, r ∈ getErrorResults results ↔ r ∈ results ∧ r.errorCount ≠ 0) ∧
    (getErrorResults results).length =
      results.countP (fun r => r.errorCount != 0) := by
  refine ⟨List.filter_sublist results, fun r => ?_,
    (List.countP_eq_length_filter _ _).symm⟩
  simp [getErrorResults, List.mem_filter]

/-- C4 counterexample: with `errorOnUnmatchedPattern: false` and the patterns
`["src", "missing"]`, where the second pattern matches no files, the call does
not return the empty sequence — it returns one result per file matched by the
other pattern. -/
theorem c4_counterexample :
    c4MatchFiles "missing" = [] ∧
    c4Opts.errorOnUnmatchedPattern = some false ∧
    lintFiles c4Opts c4MatchFiles c4LintFile ["src", "missing"] =
      Except.ok [c4LintFile "src/a.ts"] ∧
    lintFiles c4Opts c4MatchFiles c4LintFile ["src", "missing"] ≠
      Except.ok [] := by
  have h2 : lintFiles c4Opts c4MatchFiles c4LintFile ["src", "missing"] =
      Except.ok [c4LintFile "src/a.ts"] := rfl
  refine ⟨rfl, rfl, h2, ?_⟩
  rw [h2]
  simp

/-- C4 (amended): if some pattern matches no files and
`errorOnUnmatchedPattern` is enabled (the default when the option is
omitted), `lintFiles` fails with an unmatched-pattern error rather than
returning an empty sequence; with `errorOnUnmatchedPattern` set to false the
same call never fails — it returns one result per matched file, which is the
empty sequence when no pattern matches any file. -/
theorem c4_unmatched_pattern_behavior (opts : ESLintOptions)
    (matchFiles : String → List String) (lintFile : String → LintResult)
    (patterns : List String) :
    ((opts.errorOnUnmatchedPattern = none ∨
        opts.errorOnUnmatchedPattern = some true) →
      (∃ p ∈ patterns, matchFiles p = []) →
      ∃ q ∈ patterns, matchFiles q = [] ∧
        lintFiles opts matchFiles lintFile patterns =
          Except.error (ESLintError.unmatchedPattern q)) ∧
    (opts.errorOnUnmatchedPattern = some false →
      lintFiles opts matchFiles lintFile patterns =
        Except.ok (((patterns.map matchFiles).flatten).map lintFile) ∧
      ((∀ p ∈ patterns, matchFiles p = []) →
        lintFiles opts matchFiles lintFile patterns = Except.ok [])) := by
  constructor
  · rintro hopt ⟨p, hp, hmp⟩
    have hsome : (patterns.find? (fun q => (matchFiles q).isEmpty)).isSome := by
      rw [List.find?_isSome]
      exact ⟨p, hp, by simp [hmp]⟩
    rcases Option.isSome_iff_exists.mp hsome with ⟨q, hq⟩
    refine ⟨q, List.mem_of_find?_eq_some hq, ?_, ?_⟩
    · have hpq := List.find?_some hq
      simpa [List.isEmpty_iff] using hpq
    · unfold lintFiles
      rcases hopt with h | h <;> rw [hq] <;> simp [h]
  · intro h
    have hok : lintFiles opts matchFiles lintFile patterns =
        Except.ok (((patterns.map matchFiles).flatten).map lintFile) := by
      unfold lintFiles
      rcases hfind : patterns.find? (fun p => (matchFiles p).isEmpty) with _ | q
      · simp
      · simp [h]
    refine ⟨hok, fun hall => ?_⟩
    rw [hok]
    have hflat : (patterns.map matchFiles).flatten = [] := by
      rw [List.flatten_eq_nil_iff]
      intro l hl
      rcases List.mem_map.mp hl with ⟨p, hp, rfl⟩
      exact hall p hp
    rw [hflat]
    simp

theorem c4_unmatched_pattern_behavior_witness :
    (∃ q ∈ ["missing"], c4MatchFiles q = [] ∧
      lintFiles {} c4MatchFiles c4LintFile ["missing"] =
        Except.error (ESLintError.unmatchedPattern q)) ∧
    lintFiles c4Opts c4MatchFiles c4LintFile ["missing"] = Except.ok [] :=
  ⟨(c4_unmatched_pattern_behavior {} c4MatchFiles c4LintFile ["missing"]).1
      (Or.inl rfl) ⟨"missing", by decide, by decide⟩,
   ((c4_unmatched_pattern_behavior c4Opts c4MatchFiles c4LintFile
      ["missing"]).2 rfl).2 (by decide)⟩

theorem assocFind_eq_some_mem (k : String)
    (l : List (String × FormatterModule)) (v : FormatterModule)
    (h : assocFind k l = some v) : (k, v) ∈ l := by
  induction l with
  | nil => simp [assocFind] at h
  | cons a t ih =>
    rcases a with ⟨k2, v2⟩
    by_cases hk : k2 = k
    · subst hk
      simp [assocFind] at h
      subst h
      exact List.mem_cons_self _ _
    · simp [assocFind, hk] at h
      exact List.mem_cons_of_mem _ (ih h)

theorem resolveFormatter_mem (env : FormatterEnv) (n : String)
    (m : FormatterModule) (h : resolveFormatter env n = some m) :
    (n, m) ∈ env.builtins ∨ (normalizePackageName n, m) ∈ env.packages ∨
      (n, m) ∈ env.files := by
  unfold resolveFormatter at h
  split at h
  next v heq =>
    injection h with h2
    subst h2
    exact Or.inl (assocFind_eq_some_mem _ _ _ heq)
  next heq =>
    split at h
    next v2 heq2 =>
      injection h with h2
      subst h2
      exact Or.inr (Or.inl (assocFind_eq_some_mem _ _ _ heq2))
    next heq2 =>
      exact Or.inr (Or.inr (assocFind_eq_some_mem _ _ _ h))

/-- C6: `loadFormatter` with an omitted name loads the `stylish` builtin; a
successfully loaded formatter was resolved through one of exactly three
tiers — builtin name, third-party package naming convention, or filesystem
path — and is a function from a result sequence plus optional per-rule
metadata to a string (the type `Formatter`); the call is rejected exactly
when the name resolves through no tier or the resolved target is not a
function; and the package naming convention maps `foo` to
`eslint-formatter-foo`, `@foo` to `@foo/eslint-formatter` and `@foo/bar` to
`@foo/eslint-formatter-bar`. -/
theorem c6_loadFormatter_three_tier (env : FormatterEnv) (n : String) :
    loadFormatter env none = loadFormatter env (some "stylish") ∧
    (∀ f : Formatter, loadFormatter env (some n) = Except.ok f →
      (n, FormatterModule.fn f) ∈ env.builtins ∨
      (normalizePackageName n, FormatterModule.fn f) ∈ env.packages ∨
      (n, FormatterModule.fn f) ∈ env.files) ∧
    ((∃ e, loadFormatter env (some n) = Except.error e) ↔
      (resolveFormatter env n = none ∨
        resolveFormatter env n = some FormatterModule.notFn)) ∧
    (normalizePackageName "foo" = "eslint-formatter-foo" ∧
      normalizePackageName "@foo" = "@foo/eslint-formatter" ∧
      normalizePackageName "@foo/bar" = "@foo/eslint-formatter-bar") := by
  refine ⟨rfl, fun f hf => ?_, ⟨fun he => ?_, fun hr => ?_⟩, by decide, by decide,
    by decide⟩
  · simp only [loadFormatter, Option.getD_some] at hf
    split at hf
    next g heq =>
      injection hf with h2
      subst h2
      exact resolveFormatter_mem env n _ heq
    next heq =>
      simp at hf
    next heq =>
      simp at hf
  · rcases he with ⟨e, he⟩
    simp only [loadFormatter, Option.getD_some] at he
    split at he
    next g heq =>
      simp at he
    next heq =>
      exact Or.inr heq
    next heq =>
      exact Or.inl heq
  · rcases hr with hr | hr
    · exact ⟨ESLintError.formatterNotFound n, by simp [loadFormatter, hr]⟩
    · exact ⟨ESLintError.formatterNotFunction n, by simp [loadFormatter, hr]⟩

theorem c6_loadFormatter_three_tier_witness :
    (("stylish", FormatterModule.fn cFmt) ∈ c6Env.builtins ∨
      (normalizePackageName "stylish", FormatterModule.fn cFmt) ∈ c6Env.packages ∨
      ("stylish", FormatterModule.fn cFmt) ∈ c6Env.files) ∧
    (∃ e, loadFormatter c6Env (some "nope") = Except.error e) :=
  ⟨(c6_loadFormatter_three_tier c6Env "stylish").2.1 cFmt rfl,
   ((c6_loadFormatter_three_tier c6Env "nope").2.2.1).mpr (Or.inl rfl)⟩
